import Mathlib

/-!
Verification of the vegetation-change detection pipeline
(`gee-vegetation-change`, notebook
`01-code-scripts/gee-vegetation-change-methods-columbia.ipynb`).

The notebook orchestrates a Google Earth Engine workflow: cloud/shadow
masking, NDVI computation, temporal differencing, SNIC segmentation with
threshold classification, raster-to-vector conversion, and a guarded export
to a GEE asset.  Rasters are modelled as named bands of optional rational
samples (`none` = masked/invalid pixel); the export gate is embedded
directly from the notebook's cell that checks asset existence before
calling `vc.export_vector`.
-/

namespace VegChange

/-- A band's pixel grid in row-major order; `none` marks a masked/invalid
sample. -/
abbrev Pixels := List (Option ℚ)

/-- A raster: a grid of named bands over a shared width × height extent. -/
structure Raster where
  width : Nat
  height : Nat
  bands : List (String × Pixels)
deriving DecidableEq

/-- Look up a band by name (first band with that name, as a keyed lookup). -/
def Raster.getBand (r : Raster) (name : String) : Option Pixels :=
  (r.bands.find? (fun b => b.1 == name)).map Prod.snd

/-- A vector feature: a region identifier, its class label, and polygon
rings of coordinate pairs. -/
structure Feature where
  regionId : Nat
  classLabel : String
  rings : List (List (ℚ × ℚ))
deriving DecidableEq

/-- A collection of vector features. -/
structure FeatureCollection where
  features : List Feature
deriving DecidableEq

/-! ## Export gate (notebook cell "Data Export")

The notebook guards each export with

  if (change_primary_asset := ee.FeatureCollection(change_primary_asset_name)):
      print("... already exists. Skipping export...")
  else:
      change_primary_export = vc.export_vector(...)

`ee.FeatureCollection(name)` merely constructs a client-side handle; the
class defines neither a boolean conversion nor a length, so Python's default
truthiness makes the handle truthy for every name, whatever the store holds.
-/

/-- The persistent store: the set of asset identifiers that already exist. -/
structure Store where
  existing : List String
deriving DecidableEq

/-- `exists(id)` on the persistent store. -/
def Store.existsId (s : Store) (id : String) : Bool :=
  s.existing.contains id

/-- A client-side `ee.FeatureCollection(asset_name)` handle: it records the
asset name and nothing else; constructing it performs no store lookup. -/
structure EEHandle where
  assetName : String
deriving DecidableEq

/-- Python truthiness of an `ee.FeatureCollection` handle: the class defines
neither a boolean conversion nor a length, so every handle is truthy. -/
def EEHandle.truthy (_ : EEHandle) : Bool :=
  true

/-- Outcome of the export gate. -/
inductive ExportOutcome
  | Skipped (id : String)
  | Exported (id : String)
deriving DecidableEq

/-- An exporter writes a feature collection to the store at an identifier
(the notebook's `vc.export_vector` with `output_method='asset'`). -/
abbrev Exporter := FeatureCollection → String → Store → Store

/-- The notebook's export gate, embedded from the export cell: construct the
handle `ee.FeatureCollection(destId)`, branch on its truthiness; the `if`
branch skips, the `else` branch invokes the exporter.  Returns the outcome,
whether the exporter was invoked, and the resulting store. -/
def notebookExportGate (store : Store) (fc : FeatureCollection) (destId : String)
    (exporter : Exporter) : ExportOutcome × Bool × Store :=
  let handle : EEHandle := ⟨destId⟩
  if handle.truthy then
    (ExportOutcome.Skipped destId, false, store)
  else
    (ExportOutcome.Exported destId, true, exporter fc destId store)

/-- The notebook's output-folder configuration (cell "Define output folder"). -/
def gee_username : String := "calekochenour"

/-- The notebook's asset folder configuration. -/
def gee_asset_folder : String := "vegetation-change"

/-- The notebook's primary-change asset name, built as in the export cell. -/
def change_primary_asset_name : String :=
  "users/" ++ gee_username ++ "/" ++ gee_asset_folder ++ "/vegetation_change_primary"

/-! ## IndexComputer (vegetation_change.py `add_ndvi`, lines 46-70)

Modelled from the spec: `vegetation_change.py` is not part of the sources;
the notebook only calls it.  Spec 4.2: computes `(NIR - RED) / (NIR + RED)`
pixelwise; guards division by zero by leaving the result pixel invalid when
`NIR + RED = 0`; appends the result as a new band; fails with
`MissingBandError` if either source band is absent. -/

/-- Modelled from the spec: pixelwise normalized difference with the
division-by-zero guard of spec 4.2 (`vegetation_change.py::add_ndvi` is
missing from the sources).  A pixel masked in either input is masked in
the output. -/
def ndviPixel (n r : Option ℚ) : Option ℚ :=
  match n, r with
  | some nv, some rv => if nv + rv = 0 then none else some ((nv - rv) / (nv + rv))
  | _, _ => none

/-- Modelled from the spec: `IndexComputer.add_index` (spec 4.2), the
contract implemented by `vegetation_change.py::add_ndvi`, which is missing
from the sources.  Appends the normalized-difference band `out` computed
from bands `nir` and `red`; fails when a source band is absent. -/
def add_index (r : Raster) (nir red out : String) : Except String Raster :=
  match r.getBand nir, r.getBand red with
  | some nb, some rb =>
      Except.ok ⟨r.width, r.height, r.bands ++ [(out, List.zipWith ndviPixel nb rb)]⟩
  | _, _ => Except.error "MissingBandError"

/-! ## TemporalDifferencer (vegetation_change.py `subtract_ndvi_bands`,
lines 98-135) -/

/-- Modelled from the spec: pixelwise subtraction over the intersection of
the valid masks (spec 4.4); a pixel masked in either input is masked in the
output. -/
def diffPixel (a b : Option ℚ) : Option ℚ :=
  match a, b with
  | some x, some y => some (x - y)
  | _, _ => none

/-- Modelled from the spec: `TemporalDifferencer.difference` (spec 4.4), the
contract implemented by `vegetation_change.py::subtract_ndvi_bands`, which
is missing from the sources.  Produces the single-band raster
`later[band] - earlier[band]` over the intersection of the valid masks;
fails on geometry mismatch or a missing band. -/
def difference (later earlier : Raster) (band : String) : Except String Raster :=
  if later.width = earlier.width ∧ later.height = earlier.height then
    match later.getBand band, earlier.getBand band with
    | some lb, some eb =>
        Except.ok ⟨later.width, later.height, [(band, List.zipWith diffPixel lb eb)]⟩
    | _, _ => Except.error "MissingBandError"
  else Except.error "GeometryMismatchError"

/-! ## CloudMasker (vegetation_change.py `mask_landsat8_sr`, lines 9-43) -/

/-- Modelled from the spec: the per-pixel keep test of spec 4.1 — keep a
pixel when neither the cloud bit nor the cloud-shadow bit of the QA sample
is set (for Landsat 8 Collection 1 SR `pixel_qa`, shadow is bit 3 and cloud
is bit 5).  A masked or non-integral QA sample keeps nothing. -/
def keepQA (q : Option ℚ) : Bool :=
  match q with
  | some v =>
      if v.den = 1 ∧ 0 ≤ v.num then
        !(v.num.toNat.testBit 3) && !(v.num.toNat.testBit 5)
      else false
  | none => false

/-- Modelled from the spec: apply the keep test of one QA sample to one
sample of another band (spec 4.1: masked pixels are excluded, not deleted). -/
def maskPixel (q x : Option ℚ) : Option ℚ :=
  if keepQA q then x else none

/-- Modelled from the spec: `CloudMasker.mask` (spec 4.1), the contract
implemented by `vegetation_change.py::mask_landsat8_sr`, which is missing
from the sources.  Applies the QA keep-mask to every band; fails with
`InvalidBandError` when the QA band is absent. -/
def mask_landsat8_sr (r : Raster) : Except String Raster :=
  match r.getBand "pixel_qa" with
  | some qa =>
      Except.ok ⟨r.width, r.height,
        r.bands.map (fun b => (b.1, List.zipWith maskPixel qa b.2))⟩
  | none => Except.error "InvalidBandError"

/-! ## Pipeline: vegetation_change.py `ndvi_diff_landsat8` (lines 140-189)

Modelled from the spec and the notebook's description of the function:
mask each image of the collection, add the NDVI band to each, convert the
collection to a list (`image_collection_to_list`, order-preserving), and
subtract the NDVI band of the member at the second index from the NDVI band
of the member at the first index. -/

/-- Modelled from the spec: `image_collection_to_list`
(`vegetation_change.py`, lines 73-95, missing from the sources) — converts
the collection to a list preserving the collection's construction order
(spec 4.3: pure indexed access, no date inference). -/
def image_collection_to_list (col : List Raster) : List Raster :=
  col

/-- Modelled from the spec: the per-image processing of
`ndvi_diff_landsat8` — cloud/shadow masking followed by NDVI computation on
Landsat 8 SR bands B5 (NIR) and B4 (RED). -/
def processImage (r : Raster) : Except String Raster :=
  (mask_landsat8_sr r).bind (fun m => add_index m "B5" "B4" "NDVI")

/-- Modelled from the spec: `vegetation_change.py::ndvi_diff_landsat8`
(lines 140-189, missing from the sources).  Masks and computes NDVI for
each image, lists the collection in construction order, and returns the
NDVI band of member `i` minus the NDVI band of member `j`
(the notebook calls it as `ndvi_diff_landsat8(collection, 1, 0)`). -/
def ndvi_diff_landsat8 (col : List Raster) (i j : Nat) : Except String Raster :=
  let lst := image_collection_to_list col
  match lst[i]?, lst[j]? with
  | some ri, some rj =>
      (processImage ri).bind (fun a =>
        (processImage rj).bind (fun b => difference a b "NDVI"))
  | _, _ => Except.error "IndexOutOfRangeError"

/-! ## RegionSegmenter (vegetation_change.py `segment_snic`, lines 192-270)

Modelled from the spec: the segmentation itself is offloaded by the source
to the remote service's SNIC implementation; spec 4.5 abstracts it as
seed-grid clustering — seeds on a regular grid with spacing `seed_spacing`,
each pixel assigned to the seed minimizing
`spatial_distance² + compactness × spectral_distance²`, single pass, pixels
outside the boundary or masked excluded.  A `RegionMap` is a row-major list
of optional region identifiers (`none` = excluded pixel). -/

/-- A region map: per pixel, the region identifier it belongs to, or `none`
for an excluded (masked / out-of-boundary) pixel. -/
abbrev RegionMap := List (Option Nat)

/-- Whether the sample at row-major position `p` of a band is valid. -/
def validAt (vals : Pixels) (p : Nat) : Bool :=
  match vals[p]? with
  | some (some _) => true
  | _ => false

/-- Whether row-major position `p` lies inside the rasterized boundary. -/
def inBoundary (boundary : List Bool) (p : Nat) : Bool :=
  boundary.getD p false

/-- Modelled from the spec: seed points placed on a regular grid with
spacing `s` over a `w × h` raster (spec 4.5). -/
def seedPoints (w h s : Nat) : List (Nat × Nat) :=
  (List.range h).flatMap (fun y =>
    (List.range w).filterMap (fun x =>
      if x % s = 0 ∧ y % s = 0 then some (x, y) else none))

/-- The sample value at grid coordinate `q` of a `w`-wide band, taking `0`
for a masked or out-of-range sample. -/
def pixelVal (vals : Pixels) (w : Nat) (q : Nat × Nat) : ℚ :=
  match vals[q.2 * w + q.1]? with
  | some (some v) => v
  | _ => 0

/-- Modelled from the spec: the joint clustering distance of spec 4.5,
`spatial_distance² + compactness × spectral_distance²`. -/
def segDist (vals : Pixels) (w : Nat) (c : ℚ) (p q : Nat × Nat) : ℚ :=
  ((p.1 : ℚ) - (q.1 : ℚ)) ^ 2 + ((p.2 : ℚ) - (q.2 : ℚ)) ^ 2
    + c * (pixelVal vals w p - pixelVal vals w q) ^ 2

/-- Modelled from the spec: the index (into the seed list) of the seed
nearest to pixel `p` in the joint distance, ties broken toward the earlier
seed; `none` only when there are no seeds. -/
def nearestSeed (vals : Pixels) (w : Nat) (c : ℚ) (ss : List (Nat × Nat))
    (p : Nat × Nat) : Option Nat :=
  match ss with
  | [] => none
  | s0 :: rest =>
      some ((rest.enum.foldl (fun best cur =>
        let d := segDist vals w c p cur.2
        if d < best.2 then (cur.1 + 1, d) else best)
        (0, segDist vals w c p s0)).1)

/-- Modelled from the spec: `RegionSegmenter.segment` (spec 4.5), the
segmentation phase of `vegetation_change.py::segment_snic`, which is
missing from the sources.  `vals` is the index-difference band, `boundary`
the rasterized study-area membership; each valid in-boundary pixel is
assigned the nearest seed, all other pixels are excluded; fails with
`EmptySegmentationError` when no valid in-boundary pixel exists. -/
def segment (vals : Pixels) (w h : Nat) (boundary : List Bool) (s : Nat)
    (c : ℚ) : Except String RegionMap :=
  let keep : Nat → Bool := fun p => validAt vals p && inBoundary boundary p
  if (List.range (w * h)).all (fun p => !(keep p)) then
    Except.error "EmptySegmentationError"
  else
    Except.ok ((List.range (w * h)).map (fun p =>
      if keep p then nearestSeed vals w c (seedPoints w h s) (p % w, p / w)
      else none))

/-- Whether region `i` appears in (has at least one member pixel of) a
region map. -/
def appearsIn (m : RegionMap) (i : Nat) : Prop :=
  some i ∈ m

instance (m : RegionMap) (i : Nat) : Decidable (appearsIn m i) :=
  inferInstanceAs (Decidable (some i ∈ m))

/-- The number of pixels of region `i` in a region map. -/
def regionSize (m : RegionMap) (i : Nat) : Nat :=
  m.count (some i)

/-- The number of excluded pixels of a region map. -/
def excludedCount (m : RegionMap) : Nat :=
  m.count none

/-- The set of region identifiers appearing in a region map. -/
def regionIds (m : RegionMap) : Finset Nat :=
  (m.filterMap id).toFinset

/-- Modelled from the spec: the mean index-difference value of region `i`
over its member pixels with valid samples (spec 4.5, classify phase);
`none` when the region has no valid member pixel. -/
def regionMean (vals : Pixels) (m : RegionMap) (i : Nat) : Option ℚ :=
  let xs := (List.zip m vals).filterMap (fun pv =>
    match pv with
    | (some j, some v) => if j = i then some v else none
    | _ => none)
  if xs.length = 0 then none else some (xs.sum / (xs.length : ℚ))

/-- Whether an optional mean value falls inside an inclusive threshold
band; a missing mean (region with zero valid pixels) is in no band. -/
def inBand (mean : Option ℚ) (lo hi : ℚ) : Bool :=
  match mean with
  | some v => decide (lo ≤ v) && decide (v ≤ hi)
  | none => false

/-- Modelled from the spec: one class of the classify phase of spec 4.5 —
retain exactly the regions whose mean falls within the class's threshold
band, excluding every pixel of the other regions. -/
def classifyOne (vals : Pixels) (m : RegionMap) (lo hi : ℚ) : RegionMap :=
  m.map (fun o =>
    match o with
    | some i => if inBand (regionMean vals m i) lo hi then some i else none
    | none => none)

/-- Modelled from the spec: `RegionSegmenter.classify` (spec 4.5), the
classification phase of `vegetation_change.py::segment_snic`, which is
missing from the sources.  Each named class of the threshold configuration
is evaluated independently against its own band. -/
def classify (vals : Pixels) (m : RegionMap)
    (thresholds : List (String × ℚ × ℚ)) : List (String × RegionMap) :=
  thresholds.map (fun t => (t.1, classifyOne vals m t.2.1 t.2.2))

/-- The notebook's threshold list (cell "Define NDVI thresholds"): indices
0/1 are min/max for the primary class, 2/3 min/max for the secondary
class. -/
def ndvi_change_thresholds : List ℚ :=
  [-2, -1/2, -1/2, -7/20]

/-- The notebook's threshold configuration as named classes: primary
(-2.0, -0.5) and secondary (-0.5, -0.35). -/
def notebookThresholds : List (String × ℚ × ℚ) :=
  [("primary", -2, -1/2), ("secondary", -1/2, -7/20)]

/-! ## Shared helper lemmas -/

/-- Indexing a `zipWith` where both inputs have an entry at the position. -/
theorem getElem?_zipWith_both {α β γ : Type} (f : α → β → γ) (l1 : List α)
    (l2 : List β) (p : Nat) (a : α) (b : β) (h1 : l1[p]? = some a)
    (h2 : l2[p]? = some b) : (List.zipWith f l1 l2)[p]? = some (f a b) := by
  induction l1 generalizing l2 p with
  | nil => simp at h1
  | cons x xs ih =>
    cases l2 with
    | nil => simp at h2
    | cons y ys =>
      cases p with
      | zero =>
        simp only [List.getElem?_cons_zero, Option.some.injEq] at h1 h2
        simp [h1, h2]
      | succ q =>
        simp only [List.getElem?_cons_succ] at h1 h2
        simpa using ih ys q h1 h2

/-- Counting a `some` in an option list equals counting its payload among
the present values. -/
theorem count_some_eq_count_filterMap (m : RegionMap) (i : Nat) :
    m.count (some i) = (m.filterMap id).count i := by
  induction m with
  | nil => rfl
  | cons o t ih =>
    cases o with
    | none => simp [List.count_cons, ih]
    | some j =>
      by_cases h : j = i
      · simp [List.count_cons, ih, h]
      · simp [List.count_cons, ih, h]

/-- The `none` entries and the present values of an option list together
account for its length. -/
theorem count_none_add_length_filterMap (m : RegionMap) :
    m.count none + (m.filterMap id).length = m.length := by
  induction m with
  | nil => rfl
  | cons o t ih =>
    cases o with
    | none => simp [List.count_cons]; omega
    | some j => simp [List.count_cons]; omega

/-- Summing the multiplicities of the distinct members of a list gives its
length. -/
theorem sum_count_toFinset (l : List Nat) :
    ∑ i in l.toFinset, l.count i = l.length := by
  simp

/-- Region sizes and the excluded count of any region map sum to the pixel
count. -/
theorem partition_count (m : RegionMap) :
    (∑ i in regionIds m, regionSize m i) + excludedCount m = m.length := by
  unfold regionIds regionSize excludedCount
  rw [Finset.sum_congr rfl (fun i _ => count_some_eq_count_filterMap m i)]
  rw [sum_count_toFinset]
  have := count_none_add_length_filterMap m
  omega

/-! ## Export gate claims -/

/-- Claim C2: the notebook's export gate always takes the skip branch and
never invokes the exporter, because the freshly constructed
`ee.FeatureCollection(asset_name)` handle is truthy irrespective of what
the store holds, so the export (else) branch is unreachable for all
inputs. -/
theorem notebookExportGate_always_skips (store : Store) (fc : FeatureCollection)
    (destId : String) (exporter : Exporter) :
    (EEHandle.mk destId).truthy = true ∧
    notebookExportGate store fc destId exporter =
      (ExportOutcome.Skipped destId, false, store) :=
  ⟨rfl, rfl⟩

/-- Claim C1 (code-bug evidence): at the notebook's primary-change
destination, with a store in which no object exists at that identifier, the
gate still returns `Skipped` and does not invoke the exporter, contradicting
the contract that an absent object leads to `Exported`. -/
theorem notebookExportGate_skips_despite_absent :
    (Store.mk []).existsId change_primary_asset_name = false ∧
    notebookExportGate (Store.mk []) (FeatureCollection.mk [])
        change_primary_asset_name
        (fun _ id st => Store.mk (id :: st.existing)) =
      (ExportOutcome.Skipped change_primary_asset_name, false, Store.mk []) :=
  ⟨rfl, rfl⟩

/-- Claim C9: calling the export gate twice in sequence with the same
destination identifier against the same store invokes the underlying
exporter at most once, and the second call returns `Skipped`. -/
theorem notebookExportGate_twice (store : Store) (fc : FeatureCollection)
    (destId : String) (exporter : Exporter) :
    (notebookExportGate store fc destId exporter).2.1.toNat +
      (notebookExportGate (notebookExportGate store fc destId exporter).2.2
        fc destId exporter).2.1.toNat ≤ 1 ∧
    (notebookExportGate (notebookExportGate store fc destId exporter).2.2
        fc destId exporter).1 = ExportOutcome.Skipped destId :=
  ⟨Nat.le_succ 0, rfl⟩

/-! ## IndexComputer claims -/

/-- Claim C4: for every raster containing the NIR and RED bands, `add_index`
appends a band that holds `(NIR - RED) / (NIR + RED)` at every pixel where
both samples are valid and `NIR + RED` is nonzero, and an invalid pixel
where `NIR + RED = 0`; samples are rationals, so no NaN or infinity can be
produced. -/
theorem add_index_ndvi (r : Raster) (nir red out : String) (nb rb : Pixels)
    (hn : r.getBand nir = some nb) (hr : r.getBand red = some rb) :
    add_index r nir red out =
      Except.ok ⟨r.width, r.height,
        r.bands ++ [(out, List.zipWith ndviPixel nb rb)]⟩ ∧
    (∀ (p : Nat) (n v : ℚ), nb[p]? = some (some n) → rb[p]? = some (some v) → n + v ≠ 0 →
      (List.zipWith ndviPixel nb rb)[p]? = some (some ((n - v) / (n + v)))) ∧
    (∀ (p : Nat) (n v : ℚ), nb[p]? = some (some n) → rb[p]? = some (some v) → n + v = 0 →
      (List.zipWith ndviPixel nb rb)[p]? = some none) := by
  refine ⟨by simp [add_index, hn, hr], ?_, ?_⟩
  · intro p n v h1 h2 h3
    rw [getElem?_zipWith_both ndviPixel nb rb p _ _ h1 h2]
    simp [ndviPixel, h3]
  · intro p n v h1 h2 h3
    rw [getElem?_zipWith_both ndviPixel nb rb p _ _ h1 h2]
    simp [ndviPixel, h3]

/-- Witness for claim C4 at a concrete two-pixel raster: one pixel with
NIR + RED nonzero, one with NIR = RED = 0. -/
theorem add_index_ndvi_witness :
    add_index (Raster.mk 2 1 [("B5", [some 9, some 0]), ("B4", [some 1, some 0])])
        "B5" "B4" "NDVI" =
      Except.ok (Raster.mk 2 1
        ([("B5", [some 9, some 0]), ("B4", [some 1, some 0])] ++
          [("NDVI", List.zipWith ndviPixel [some 9, some 0] [some 1, some 0])])) ∧
    (∀ (p : Nat) (n v : ℚ), ([some 9, some 0] : Pixels)[p]? = some (some n) →
      ([some 1, some 0] : Pixels)[p]? = some (some v) → n + v ≠ 0 →
      (List.zipWith ndviPixel [some 9, some 0] [some 1, some 0])[p]? =
        some (some ((n - v) / (n + v)))) ∧
    (∀ (p : Nat) (n v : ℚ), ([some 9, some 0] : Pixels)[p]? = some (some n) →
      ([some 1, some 0] : Pixels)[p]? = some (some v) → n + v = 0 →
      (List.zipWith ndviPixel [some 9, some 0] [some 1, some 0])[p]? =
        some none) :=
  add_index_ndvi (Raster.mk 2 1 [("B5", [some 9, some 0]), ("B4", [some 1, some 0])])
    "B5" "B4" "NDVI" [some 9, some 0] [some 1, some 0] rfl rfl

/-! ## TemporalDifferencer claims -/

/-- Claim C5: for geometry-matched rasters both containing the index band,
`difference` produces a single-band raster holding
`later[band] - earlier[band]` at every pixel valid in both inputs, and an
invalid pixel wherever either input is invalid (mask intersection). -/
theorem difference_band (later earlier : Raster) (band : String)
    (lb eb : Pixels) (hw : later.width = earlier.width)
    (hh : later.height = earlier.height)
    (hl : later.getBand band = some lb) (he : earlier.getBand band = some eb) :
    difference later earlier band =
      Except.ok ⟨later.width, later.height,
        [(band, List.zipWith diffPixel lb eb)]⟩ ∧
    (∀ (p : Nat) (a b : ℚ), lb[p]? = some (some a) → eb[p]? = some (some b) →
      (List.zipWith diffPixel lb eb)[p]? = some (some (a - b))) ∧
    (∀ (p : Nat) (x y : Option ℚ), lb[p]? = some x → eb[p]? = some y → (x = none ∨ y = none) →
      (List.zipWith diffPixel lb eb)[p]? = some none) := by
  refine ⟨by simp [difference, hw, hh, hl, he], ?_, ?_⟩
  · intro p a b h1 h2
    rw [getElem?_zipWith_both diffPixel lb eb p _ _ h1 h2]
    simp [diffPixel]
  · intro p x y h1 h2 hxy
    rw [getElem?_zipWith_both diffPixel lb eb p _ _ h1 h2]
    rcases hxy with h | h
    · subst h; simp [diffPixel]
    · subst h; cases x <;> simp [diffPixel]

/-- Witness for claim C5 at concrete one-band rasters with a jointly valid
pixel and pixels invalid on either side. -/
theorem difference_band_witness :
    difference (Raster.mk 3 1 [("NDVI", [some 5, none, some 2])])
        (Raster.mk 3 1 [("NDVI", [some 3, some 1, none])]) "NDVI" =
      Except.ok (Raster.mk 3 1
        [("NDVI", List.zipWith diffPixel [some 5, none, some 2]
          [some 3, some 1, none])]) ∧
    (∀ (p : Nat) (a b : ℚ), ([some 5, none, some 2] : Pixels)[p]? = some (some a) →
      ([some 3, some 1, none] : Pixels)[p]? = some (some b) →
      (List.zipWith diffPixel [some 5, none, some 2]
        [some 3, some 1, none])[p]? = some (some (a - b))) ∧
    (∀ (p : Nat) (x y : Option ℚ), ([some 5, none, some 2] : Pixels)[p]? = some x →
      ([some 3, some 1, none] : Pixels)[p]? = some y → (x = none ∨ y = none) →
      (List.zipWith diffPixel [some 5, none, some 2]
        [some 3, some 1, none])[p]? = some none) :=
  difference_band (Raster.mk 3 1 [("NDVI", [some 5, none, some 2])])
    (Raster.mk 3 1 [("NDVI", [some 3, some 1, none])]) "NDVI"
    [some 5, none, some 2] [some 3, some 1, none] rfl rfl rfl rfl

/-- Claim C8: self-difference is zero — `difference A A band` yields the
value `0` at every pixel whose sample is valid in `A`. -/
theorem difference_self_zero (A : Raster) (band : String) (b : Pixels)
    (hb : A.getBand band = some b) :
    difference A A band =
      Except.ok ⟨A.width, A.height, [(band, List.zipWith diffPixel b b)]⟩ ∧
    ∀ (p : Nat) (v : ℚ), b[p]? = some (some v) →
      (List.zipWith diffPixel b b)[p]? = some (some 0) := by
  refine ⟨by simp [difference, hb], ?_⟩
  intro p v hp
  rw [getElem?_zipWith_both diffPixel b b p _ _ hp hp]
  simp [diffPixel]

/-- Witness for claim C8 at a concrete raster with valid and invalid
pixels. -/
theorem difference_self_zero_witness :
    difference (Raster.mk 2 1 [("NDVI", [some 7, none])])
        (Raster.mk 2 1 [("NDVI", [some 7, none])]) "NDVI" =
      Except.ok (Raster.mk 2 1
        [("NDVI", List.zipWith diffPixel [some 7, none] [some 7, none])]) ∧
    ∀ (p : Nat) (v : ℚ), ([some 7, none] : Pixels)[p]? = some (some v) →
      (List.zipWith diffPixel [some 7, none] [some 7, none])[p]? =
        some (some 0) :=
  difference_self_zero (Raster.mk 2 1 [("NDVI", [some 7, none])]) "NDVI"
    [some 7, none] rfl

/-! ## RegionSegmenter claims -/

/-- The seed grid of a nonempty raster is nonempty: it contains the origin. -/
theorem seedPoints_ne_nil (w ht s : Nat) (hw : 0 < w) (hh : 0 < ht) :
    seedPoints w ht s ≠ [] := by
  have hmem : (0, 0) ∈ seedPoints w ht s := by
    unfold seedPoints
    rw [List.mem_flatMap]
    refine ⟨0, by simpa using hh, ?_⟩
    rw [List.mem_filterMap]
    exact ⟨0, by simpa using hw, by simp⟩
  intro hnil
  rw [hnil] at hmem
  simp at hmem

/-- A nonempty seed list always yields a nearest seed. -/
theorem nearestSeed_isSome (vals : Pixels) (w : Nat) (c : ℚ)
    (ss : List (Nat × Nat)) (p : Nat × Nat) (h : ss ≠ []) :
    ∃ i, nearestSeed vals w c ss p = some i := by
  cases ss with
  | nil => exact absurd rfl h
  | cons a t => exact ⟨_, rfl⟩

/-- Indexing the pixelwise map over the pixel range. -/
theorem getElem?_range_map {α : Type} (f : Nat → α) (n p : Nat) (hp : p < n) :
    ((List.range n).map f)[p]? = some (f p) := by
  simp [List.getElem?_map, List.getElem?_range hp]

/-- Claim C3: every region map produced by segmentation satisfies the
partition invariant — each valid in-boundary pixel belongs to exactly one
region, each masked or out-of-boundary pixel belongs to none, and the
region sizes plus the excluded count sum to the total pixel count. -/
theorem segment_partition (vals : Pixels) (w ht : Nat) (boundary : List Bool)
    (s : Nat) (c : ℚ) (m : RegionMap)
    (hm : segment vals w ht boundary s c = Except.ok m) :
    m.length = w * ht ∧
    (∀ p, p < w * ht → (validAt vals p && inBoundary boundary p) = true →
      ∃ i, m[p]? = some (some i) ∧ ∀ j, m[p]? = some (some j) → j = i) ∧
    (∀ p, p < w * ht → (validAt vals p && inBoundary boundary p) = false →
      m[p]? = some none) ∧
    (∑ i in regionIds m, regionSize m i) + excludedCount m = w * ht := by
  by_cases hall :
      (List.range (w * ht)).all
        (fun p => !(validAt vals p && inBoundary boundary p)) = true
  · rw [segment, if_pos hall] at hm
    exact absurd hm (by simp)
  · rw [segment, if_neg hall] at hm
    replace hm := (Except.ok.injEq _ _).mp hm
    have hlen : m.length = w * ht := by
      rw [← hm]; simp
    refine ⟨hlen, ?_, ?_, ?_⟩
    · intro p hp hkeep
      have hwpos : 0 < w := by
        rcases Nat.eq_zero_or_pos w with h0 | h0
        · subst h0; simp at hp
        · exact h0
      have hhpos : 0 < ht := by
        rcases Nat.eq_zero_or_pos ht with h0 | h0
        · subst h0; simp at hp
        · exact h0
      obtain ⟨i, hi⟩ := nearestSeed_isSome vals w c (seedPoints w ht s)
        (p % w, p / w) (seedPoints_ne_nil w ht s hwpos hhpos)
      refine ⟨i, ?_, ?_⟩
      · rw [← hm, getElem?_range_map _ _ p hp]
        simp [hkeep, hi]
      · intro j hj
        rw [← hm, getElem?_range_map _ _ p hp] at hj
        simp [hkeep, hi] at hj
        exact hj.symm
    · intro p hp hkeep
      rw [← hm, getElem?_range_map _ _ p hp]
      simp [hkeep]
    · rw [partition_count m, hlen]

/-- Witness for claim C3 on a concrete 2 × 1 raster with one valid
in-boundary pixel and one out-of-boundary pixel. -/
theorem segment_partition_witness :
    ([some 0, none] : RegionMap).length = 2 * 1 ∧
    (∀ p, p < 2 * 1 →
      (validAt [some 1, some 2] p && inBoundary [true, false] p) = true →
      ∃ i, ([some 0, none] : RegionMap)[p]? = some (some i) ∧
        ∀ j, ([some 0, none] : RegionMap)[p]? = some (some j) → j = i) ∧
    (∀ p, p < 2 * 1 →
      (validAt [some 1, some 2] p && inBoundary [true, false] p) = false →
      ([some 0, none] : RegionMap)[p]? = some none) ∧
    (∑ i in regionIds [some 0, none], regionSize [some 0, none] i) +
      excludedCount [some 0, none] = 2 * 1 :=
  segment_partition [some 1, some 2] 2 1 [true, false] 2 1 [some 0, none] rfl

/-- Claim C6: segmentation is deterministic — two invocations with
identical raster values, geometry, boundary, seed spacing, and compactness
produce identical region maps. -/
theorem segment_deterministic (v1 v2 : Pixels) (w1 w2 h1 h2 : Nat)
    (b1 b2 : List Bool) (s1 s2 : Nat) (c1 c2 : ℚ)
    (hv : v1 = v2) (hw : w1 = w2) (hh : h1 = h2) (hb : b1 = b2)
    (hs : s1 = s2) (hc : c1 = c2) :
    segment v1 w1 h1 b1 s1 c1 = segment v2 w2 h2 b2 s2 c2 := by
  subst hv
  subst hw
  subst hh
  subst hb
  subst hs
  subst hc
  rfl

/-- Witness for claim C6 at concrete identical arguments. -/
theorem segment_deterministic_witness :
    segment [some 1] 1 1 [true] 1 0 = segment [some 1] 1 1 [true] 1 0 :=
  segment_deterministic [some 1] [some 1] 1 1 1 1 [true] [true] 1 1 0 0
    rfl rfl rfl rfl rfl rfl

/-- Membership of an optional mean in a threshold band, unfolded. -/
theorem inBand_iff (mo : Option ℚ) (lo hi : ℚ) :
    inBand mo lo hi = true ↔ ∃ mu, mo = some mu ∧ lo ≤ mu ∧ mu ≤ hi := by
  cases mo with
  | none => simp [inBand]
  | some v => simp [inBand]

/-- A region appears in one class's output exactly when it appears in the
input map and its mean lies in that class's band. -/
theorem appearsIn_classifyOne (vals : Pixels) (m : RegionMap) (lo hi : ℚ)
    (i : Nat) :
    appearsIn (classifyOne vals m lo hi) i ↔
      appearsIn m i ∧ inBand (regionMean vals m i) lo hi = true := by
  unfold appearsIn classifyOne
  rw [List.mem_map]
  constructor
  · rintro ⟨o, ho, hgo⟩
    cases o with
    | none => simp at hgo
    | some j =>
      dsimp only at hgo
      by_cases hb : inBand (regionMean vals m j) lo hi = true
      · rw [if_pos hb] at hgo
        cases hgo
        exact ⟨ho, hb⟩
      · rw [if_neg hb] at hgo
        exact absurd hgo (by simp)
  · rintro ⟨ho, hb⟩
    refine ⟨some i, ho, ?_⟩
    dsimp only
    rw [if_pos hb]

/-- Claim C7: threshold bands are evaluated independently in `classify` —
the output for the class at any position of the threshold configuration is
its own band's filter of the region map; a region appears in that class's
output exactly when its mean index-difference value lies in that class's
band (so overlapping bands retain the region in each such class), and a
region with zero valid pixels appears in no class's output. -/
theorem classify_bands_independent (vals : Pixels) (m : RegionMap)
    (thresholds : List (String × ℚ × ℚ)) (k : Nat) (cname : String)
    (lo hi : ℚ) (hk : thresholds[k]? = some (cname, lo, hi)) (i : Nat) :
    (classify vals m thresholds)[k]? = some (cname, classifyOne vals m lo hi) ∧
    (appearsIn (classifyOne vals m lo hi) i ↔
      appearsIn m i ∧
        ∃ mu, regionMean vals m i = some mu ∧ lo ≤ mu ∧ mu ≤ hi) ∧
    (regionMean vals m i = none → ¬ appearsIn (classifyOne vals m lo hi) i) := by
  refine ⟨?_, ?_, ?_⟩
  · simp [classify, List.getElem?_map, hk]
  · rw [appearsIn_classifyOne, inBand_iff]
  · intro hnone hap
    rw [appearsIn_classifyOne] at hap
    rw [hnone] at hap
    simp [inBand] at hap
-- Note the primary and secondary bands of `notebookThresholds` overlap at
-- -0.5: a region with mean exactly -0.5 appears in both outputs, each
-- obtained from this theorem at its own position.

/-- Witness for claim C7 at the notebook's threshold configuration, the
primary class, and region 0 of a concrete two-region map. -/
theorem classify_bands_independent_witness :
    (classify [some (-1), some (-1)] [some 0, some 1] notebookThresholds)[0]? =
      some ("primary",
        classifyOne [some (-1), some (-1)] [some 0, some 1] (-2) (-1/2)) ∧
    (appearsIn (classifyOne [some (-1), some (-1)] [some 0, some 1]
        (-2) (-1/2)) 0 ↔
      appearsIn [some 0, some 1] 0 ∧
        ∃ mu, regionMean [some (-1), some (-1)] [some 0, some 1] 0 = some mu ∧
          -2 ≤ mu ∧ mu ≤ -1/2) ∧
    (regionMean [some (-1), some (-1)] [some 0, some 1] 0 = none →
      ¬ appearsIn (classifyOne [some (-1), some (-1)] [some 0, some 1]
        (-2) (-1/2)) 0) :=
  classify_bands_independent [some (-1), some (-1)] [some 0, some 1]
    notebookThresholds 0 "primary" (-2) (-1/2) rfl 0

/-! ## Pipeline order claim -/

/-- Claim C10: the temporal order used for differencing is exactly the
construction order of the two-image collection.  For any collection built
as `[peakGreen, postHarvest]` over a shared `w × h` grid,
`ndvi_diff_landsat8(collection, 1, 0)` subtracts the NDVI band of the
member at position 0 (the first-constructed image) from the NDVI band of
the member at position 1 (the second-constructed image), pixelwise, and
the difference at a jointly valid pixel is negative exactly when NDVI
decreased there — so negative means vegetation loss precisely because the
earlier image is placed first at construction. -/
theorem ndvi_diff_landsat8_order (w h : Nat) (qe ae be ql al bl : Pixels) :
    ([Raster.mk w h [("pixel_qa", qe), ("B4", ae), ("B5", be)],
      Raster.mk w h [("pixel_qa", ql), ("B4", al), ("B5", bl)]] :
        List Raster)[0]? =
      some (Raster.mk w h [("pixel_qa", qe), ("B4", ae), ("B5", be)]) ∧
    ([Raster.mk w h [("pixel_qa", qe), ("B4", ae), ("B5", be)],
      Raster.mk w h [("pixel_qa", ql), ("B4", al), ("B5", bl)]] :
        List Raster)[1]? =
      some (Raster.mk w h [("pixel_qa", ql), ("B4", al), ("B5", bl)]) ∧
    ndvi_diff_landsat8
      [Raster.mk w h [("pixel_qa", qe), ("B4", ae), ("B5", be)],
        Raster.mk w h [("pixel_qa", ql), ("B4", al), ("B5", bl)]] 1 0 =
      Except.ok (Raster.mk w h [("NDVI",
        List.zipWith diffPixel
          (List.zipWith ndviPixel (List.zipWith maskPixel ql bl)
            (List.zipWith maskPixel ql al))
          (List.zipWith ndviPixel (List.zipWith maskPixel qe be)
            (List.zipWith maskPixel qe ae)))]) ∧
    (∀ (p : Nat) (a b : ℚ),
      (List.zipWith ndviPixel (List.zipWith maskPixel ql bl)
        (List.zipWith maskPixel ql al))[p]? = some (some a) →
      (List.zipWith ndviPixel (List.zipWith maskPixel qe be)
        (List.zipWith maskPixel qe ae))[p]? = some (some b) →
      (List.zipWith diffPixel
        (List.zipWith ndviPixel (List.zipWith maskPixel ql bl)
          (List.zipWith maskPixel ql al))
        (List.zipWith ndviPixel (List.zipWith maskPixel qe be)
          (List.zipWith maskPixel qe ae)))[p]? = some (some (a - b)) ∧
      (a - b < 0 ↔ a < b)) := by
  have hpe : processImage (Raster.mk w h [("pixel_qa", qe), ("B4", ae), ("B5", be)]) =
      Except.ok (Raster.mk w h
        [("pixel_qa", List.zipWith maskPixel qe qe),
          ("B4", List.zipWith maskPixel qe ae),
          ("B5", List.zipWith maskPixel qe be),
          ("NDVI", List.zipWith ndviPixel (List.zipWith maskPixel qe be)
            (List.zipWith maskPixel qe ae))]) := rfl
  have hpl : processImage (Raster.mk w h [("pixel_qa", ql), ("B4", al), ("B5", bl)]) =
      Except.ok (Raster.mk w h
        [("pixel_qa", List.zipWith maskPixel ql ql),
          ("B4", List.zipWith maskPixel ql al),
          ("B5", List.zipWith maskPixel ql bl),
          ("NDVI", List.zipWith ndviPixel (List.zipWith maskPixel ql bl)
            (List.zipWith maskPixel ql al))]) := rfl
  refine ⟨rfl, rfl, ?_, ?_⟩
  · show (processImage (Raster.mk w h [("pixel_qa", ql), ("B4", al), ("B5", bl)])).bind
        (fun a => (processImage
          (Raster.mk w h [("pixel_qa", qe), ("B4", ae), ("B5", be)])).bind
            (fun b => difference a b "NDVI")) = _
    rw [hpe, hpl]
    show difference
        (Raster.mk w h
          [("pixel_qa", List.zipWith maskPixel ql ql),
            ("B4", List.zipWith maskPixel ql al),
            ("B5", List.zipWith maskPixel ql bl),
            ("NDVI", List.zipWith ndviPixel (List.zipWith maskPixel ql bl)
              (List.zipWith maskPixel ql al))])
        (Raster.mk w h
          [("pixel_qa", List.zipWith maskPixel qe qe),
            ("B4", List.zipWith maskPixel qe ae),
            ("B5", List.zipWith maskPixel qe be),
            ("NDVI", List.zipWith ndviPixel (List.zipWith maskPixel qe be)
              (List.zipWith maskPixel qe ae))]) "NDVI" = _
    unfold difference
    rw [if_pos ⟨rfl, rfl⟩]
    rfl
  · intro p a b h1 h2
    refine ⟨getElem?_zipWith_both diffPixel _ _ p _ _ h1 h2, ?_⟩
    exact sub_neg

end VegChange
